import Mathlib

/-!
Verification of the connectivity-check subsystem of this repository
(`src/connectivity/connectivity_check.py`): the remote executor (`ssh_run`),
the probe engine (`check_tcp_from_client`, `check_udp_from_client`), the
matrix orchestrator (`run_all_checks`), and the report renderer
(`render_html`, `html_escape`).

The Python functions are embedded shallowly:
* remote effects (paramiko SSH calls, the per-probe commands) are modelled
  by explicit oracle functions returning `Except String _`, a raised Python
  exception being `Except.error msg`;
* the `results` dict of `run_all_checks` is an association list with Python
  dict update semantics (`dictSet`: existing key keeps its position);
* the per-client `checks` list built by repeated `.append` is a `foldl`
  accumulating with `++ [·]`, exactly the loop structure of the source.
-/

namespace Connectivity

/-- `Client` dataclass of the source: host, user, optional key, optional
SSH password, optional bastion (jump host). -/
structure Client where
  host : String
  user : String
  key : Option String := none
  pw : Option String := none
  bastion : Option String := none
deriving DecidableEq

/-- One entry of the per-client `checks` list built by `run_all_checks`:
`{"env": env, "server": srv, "service": service, "port": port,
"proto": proto, "ok": ok}`.  Note the entry has no error-detail field. -/
structure Check where
  env : String
  server : String
  service : String
  port : Nat
  proto : String
  ok : Bool
deriving DecidableEq

/-- The `meta` sub-dict of a client's result: `{"user": ..., "bastion": ...}`. -/
structure CheckMeta where
  user : String
  bastion : Option String
deriving DecidableEq

/-- The value stored under `results[c.host]`: the `meta` dict and the
`checks` list. -/
structure ClientResult where
  meta : CheckMeta
  checks : List Check
deriving DecidableEq

/-- A probe function (`check_tcp_from_client` / `check_udp_from_client`) as
seen from the orchestrator: given a client, a server and a port it either
returns a boolean (`Except.ok`) or raises (`Except.error msg`). -/
abbrev ProbeFn := Client → String → Nat → Except String Bool

/-- The `try/except` around a probe call in `run_all_checks`: a returned
boolean is kept, a raised exception becomes `ok = False`. -/
def okOfOutcome : Except String Bool → Bool
  | .ok b => b
  | .error _ => false

/-- Python dict assignment `d[k] = v` on an association list: an existing
key keeps its position, a new key is appended. -/
def dictSet (k : String) (v : α) : List (String × α) → List (String × α)
  | [] => [(k, v)]
  | kv :: rest => if kv.1 = k then (k, v) :: rest else kv :: dictSet k v rest

/-- Python dict lookup `d[k]` on an association list. -/
def dictGet (k : String) : List (String × α) → Option α
  | [] => none
  | kv :: rest => if kv.1 = k then some kv.2 else dictGet k rest

/-- Python's `str.lower()`, as used on the protocol strings of the
configuration: character-wise ASCII case folding. -/
def pyLower (s : String) : String := ⟨s.data.map Char.toLower⟩

/-- The body of the innermost loop of `run_all_checks`: dispatch on
`proto.lower() == "tcp"`, run the probe under the `try/except`
(`okOfOutcome`), and build the appended check entry. -/
def probeCheck (tcp udp : ProbeFn) (c : Client) (env srv : String)
    (sp : String × Nat × String) : Check :=
  { env := env, server := srv, service := sp.1, port := sp.2.1, proto := sp.2.2,
    ok := okOfOutcome
      (if pyLower sp.2.2 = "tcp" then tcp c srv sp.2.1 else udp c srv sp.2.1) }

/-- The inner three loops of `run_all_checks` for one client `c`:
for each `(env, servers)` of `IPA_SERVERS` (declaration order), for each
server, for each `(service, port, proto)` of `REQUIRED_PORTS`, append one
check entry built by `probeCheck`. -/
def clientChecks (tcp udp : ProbeFn) (c : Client)
    (ipaServers : List (String × List String))
    (requiredPorts : List (String × Nat × String)) : List Check :=
  ipaServers.foldl (fun acc es =>
    es.2.foldl (fun acc srv =>
      requiredPorts.foldl (fun acc sp =>
        acc ++ [probeCheck tcp udp c es.1 srv sp]) acc) acc) []

/-- `run_all_checks`: for each client set `results[c.host]` to a fresh
entry with its `meta` dict and then fill its `checks` list by the three
nested loops (`clientChecks`).  Since the inner loops only touch the entry
of `c.host` just created, the net effect on the dict is one `dictSet` of
the completed entry per client, in client order. -/
def runAllChecks (clients : List Client)
    (ipaServers : List (String × List String))
    (requiredPorts : List (String × Nat × String))
    (tcp udp : ProbeFn) : List (String × ClientResult) :=
  clients.foldl (fun results c =>
    dictSet c.host ⟨⟨c.user, c.bastion⟩, clientChecks tcp udp c ipaServers requiredPorts⟩
      results) []

/-- The number of probes the configuration demands for one client:
Σ over environments of `|servers| * |requiredPorts|`. -/
def expectedCount (ipaServers : List (String × List String))
    (requiredPorts : List (String × Nat × String)) : Nat :=
  (ipaServers.map (fun es => es.2.length * requiredPorts.length)).sum

/-! ### Loop-shape lemmas: the append-accumulating folds as flat maps -/

theorem foldl_append_map (f : α → β) :
    ∀ (l : List α) (acc : List β),
      l.foldl (fun b a => b ++ [f a]) acc = acc ++ l.map f := by
  intro l
  induction l with
  | nil => intro acc; simp
  | cons a t ih => intro acc; simp [List.foldl_cons, ih]

theorem foldl_append_flat (f : α → List β) :
    ∀ (l : List α) (acc : List β),
      l.foldl (fun b a => b ++ f a) acc = acc ++ l.flatMap f := by
  intro l
  induction l with
  | nil => intro acc; simp
  | cons a t ih => intro acc; simp [List.foldl_cons, ih]

theorem clientChecks_eq (tcp udp : ProbeFn) (c : Client)
    (ipaServers : List (String × List String))
    (requiredPorts : List (String × Nat × String)) :
    clientChecks tcp udp c ipaServers requiredPorts =
      ipaServers.flatMap (fun es =>
        es.2.flatMap (fun srv =>
          requiredPorts.map (probeCheck tcp udp c es.1 srv))) := by
  unfold clientChecks
  have hin : ∀ (env srv : String) (acc : List Check),
      requiredPorts.foldl (fun acc sp =>
        acc ++ [probeCheck tcp udp c env srv sp]) acc =
      acc ++ requiredPorts.map (probeCheck tcp udp c env srv) :=
    fun env srv acc => foldl_append_map (probeCheck tcp udp c env srv) requiredPorts acc
  have hmid : ∀ (es : String × List String) (acc : List Check),
      es.2.foldl (fun acc srv =>
        requiredPorts.foldl (fun acc sp =>
          acc ++ [probeCheck tcp udp c es.1 srv sp]) acc) acc =
      acc ++ es.2.flatMap (fun srv =>
        requiredPorts.map (probeCheck tcp udp c es.1 srv)) := by
    intro es acc
    rw [List.foldl_ext
      (fun acc srv => requiredPorts.foldl (fun acc sp =>
        acc ++ [probeCheck tcp udp c es.1 srv sp]) acc)
      (fun acc srv => acc ++ requiredPorts.map (probeCheck tcp udp c es.1 srv))
      acc (fun acc srv _ => hin es.1 srv acc)]
    exact foldl_append_flat _ es.2 acc
  rw [List.foldl_ext
    (fun acc es => es.2.foldl (fun acc srv =>
      requiredPorts.foldl (fun acc sp =>
        acc ++ [probeCheck tcp udp c es.1 srv sp]) acc) acc)
    (fun acc es => acc ++ es.2.flatMap (fun srv =>
      requiredPorts.map (probeCheck tcp udp c es.1 srv)))
    [] (fun acc es _ => hmid es acc)]
  simpa using foldl_append_flat (fun es =>
    es.2.flatMap (fun srv =>
      requiredPorts.map (probeCheck tcp udp c es.1 srv))) ipaServers []

theorem clientChecks_length (tcp udp : ProbeFn) (c : Client)
    (ipaServers : List (String × List String))
    (requiredPorts : List (String × Nat × String)) :
    (clientChecks tcp udp c ipaServers requiredPorts).length =
      expectedCount ipaServers requiredPorts := by
  rw [clientChecks_eq]
  unfold expectedCount
  simp [List.length_flatMap, Function.comp_def, Nat.mul_comm]

/-! ### Dict lemmas: `run_all_checks`'s `results` dict with distinct hosts -/

theorem dictSet_append (k : String) (v : α) :
    ∀ d : List (String × α), (∀ kv ∈ d, kv.1 ≠ k) → dictSet k v d = d ++ [(k, v)] := by
  intro d
  induction d with
  | nil => intro _; rfl
  | cons kv t ih =>
    intro h
    unfold dictSet
    rw [if_neg (h kv (List.mem_cons_self kv t)), ih (fun kv' h' => h kv' (List.mem_cons_of_mem kv h'))]
    simp

theorem foldl_dictSet_eq_append (key : γ → String) (val : γ → α) :
    ∀ (l : List γ) (d : List (String × α)),
      (l.map key).Nodup → (∀ g ∈ l, ∀ kv ∈ d, kv.1 ≠ key g) →
      l.foldl (fun res g => dictSet (key g) (val g) res) d =
        d ++ l.map (fun g => (key g, val g)) := by
  intro l
  induction l with
  | nil => intro d _ _; simp
  | cons c t ih =>
    intro d hnd hdisj
    simp only [List.foldl_cons]
    rw [dictSet_append (key c) (val c) d (fun kv hkv => hdisj c (List.mem_cons_self c t) kv hkv)]
    rw [ih (d ++ [(key c, val c)]) (List.Nodup.of_cons (by simpa using hnd))]
    · simp
    · intro g hg kv hkv
      rcases List.mem_append.1 hkv with h | h
      · exact hdisj g (List.mem_cons_of_mem c hg) kv h
      · have hkv' : kv = (key c, val c) := by simpa using h
        subst hkv'
        intro hkey
        have hkey' : key c = key g := hkey
        rw [List.map_cons] at hnd
        have hmem : key c ∈ t.map key := by
          rw [hkey']; exact List.mem_map_of_mem key hg
        exact (List.nodup_cons.1 hnd).1 hmem

theorem dictGet_of_mem {k : String} {v : α} :
    ∀ {l : List (String × α)}, (l.map Prod.fst).Nodup → (k, v) ∈ l → dictGet k l = some v := by
  intro l
  induction l with
  | nil => intro _ h; exact absurd h (List.not_mem_nil _)
  | cons kv t ih =>
    intro hnd hmem
    rcases List.mem_cons.1 hmem with h | h
    · subst h; simp [dictGet]
    · unfold dictGet
      rw [if_neg, ih (List.nodup_cons.1 hnd).2 h]
      intro hkey
      have : k ∈ t.map Prod.fst := by
        simpa using List.mem_map_of_mem Prod.fst h
      exact (List.nodup_cons.1 hnd).1 (hkey ▸ this)

theorem runAllChecks_eq_map (clients : List Client)
    (ipaServers : List (String × List String))
    (requiredPorts : List (String × Nat × String)) (tcp udp : ProbeFn)
    (hhosts : (clients.map Client.host).Nodup) :
    runAllChecks clients ipaServers requiredPorts tcp udp =
      clients.map (fun c => (c.host,
        ⟨⟨c.user, c.bastion⟩, clientChecks tcp udp c ipaServers requiredPorts⟩)) := by
  unfold runAllChecks
  have := foldl_dictSet_eq_append Client.host
    (fun c => (⟨⟨c.user, c.bastion⟩, clientChecks tcp udp c ipaServers requiredPorts⟩ :
      ClientResult)) clients [] hhosts (by simp)
  simpa using this

theorem runAllChecks_dictGet (clients : List Client)
    (ipaServers : List (String × List String))
    (requiredPorts : List (String × Nat × String)) (tcp udp : ProbeFn)
    (hhosts : (clients.map Client.host).Nodup) :
    ∀ c ∈ clients, dictGet c.host (runAllChecks clients ipaServers requiredPorts tcp udp) =
      some ⟨⟨c.user, c.bastion⟩, clientChecks tcp udp c ipaServers requiredPorts⟩ := by
  intro c hc
  rw [runAllChecks_eq_map clients ipaServers requiredPorts tcp udp hhosts]
  apply dictGet_of_mem
  · simpa [List.map_map, Function.comp_def] using hhosts
  · exact List.mem_map_of_mem _ hc

/-! ### Counting lemmas for the one-entry-per-tuple invariant -/

theorem countP_flatMap (p : β → Bool) (f : α → List β) :
    ∀ l : List α, ((l.flatMap f).countP p) = (l.map (fun a => (f a).countP p)).sum := by
  intro l
  induction l with
  | nil => simp
  | cons a t ih => simp [List.countP_append, ih]

theorem sum_map_eq_one {κ : Type} (g : α → κ) (f : α → Nat) :
    ∀ (l : List α) (x : α), (l.map g).Nodup → x ∈ l → f x = 1 →
      (∀ y ∈ l, g y ≠ g x → f y = 0) → (l.map f).sum = 1 := by
  intro l
  induction l with
  | nil => intro x _ hx; exact absurd hx (List.not_mem_nil x)
  | cons a t ih =>
    intro x hnd hx h1 h0
    rw [List.map_cons] at hnd
    have hnd' := List.nodup_cons.1 hnd
    rcases List.mem_cons.1 hx with h | h
    · subst h
      have hz : ∀ z ∈ t.map f, z = 0 := by
        intro z hz
        rcases List.mem_map.1 hz with ⟨y, hy, rfl⟩
        refine h0 y (List.mem_cons_of_mem x hy) (fun hxy => hnd'.1 ?_)
        exact hxy ▸ List.mem_map_of_mem g hy
      simp [List.sum_eq_zero hz, h1]
    · have hne : g a ≠ g x := by
        intro he
        exact hnd'.1 (he ▸ List.mem_map_of_mem g h)
      have ha : f a = 0 := h0 a (List.mem_cons_self a t) hne
      have := ih x hnd'.2 h h1 (fun y hy hne' => h0 y (List.mem_cons_of_mem a hy) hne')
      simp [ha, this]

theorem countP_eq_one_of_nodup (p : α → Bool) :
    ∀ (l : List α) (x : α), l.Nodup → x ∈ l → p x = true →
      (∀ y ∈ l, y ≠ x → p y = false) → l.countP p = 1 := by
  intro l
  induction l with
  | nil => intro x _ hx; exact absurd hx (List.not_mem_nil x)
  | cons a t ih =>
    intro x hnd hx h1 h0
    have hnd' := List.nodup_cons.1 hnd
    rcases List.mem_cons.1 hx with h | h
    · subst h
      have hz : t.countP p = 0 := by
        rw [List.countP_eq_zero]
        intro y hy
        have : p y = false := h0 y (List.mem_cons_of_mem x hy)
          (fun he => hnd'.1 (he ▸ hy))
        simp [this]
      simp [List.countP_cons, hz, h1]
    · have hax : a ≠ x := fun he => hnd'.1 (he ▸ h)
      have ha : p a = false := h0 a (List.mem_cons_self a t) hax
      have := ih x hnd'.2 h h1 (fun y hy hne => h0 y (List.mem_cons_of_mem a hy) hne)
      simp [List.countP_cons, ha, this]

/-- The predicate "this check entry is the one for `(env, srv, sp)`":
its `env`, `server`, `service`, `port` and `proto` fields all match. -/
def checkMatches (env srv : String) (sp : String × Nat × String) (chk : Check) : Bool :=
  chk.env == env && chk.server == srv && chk.service == sp.1 &&
    chk.port == sp.2.1 && chk.proto == sp.2.2

theorem clientChecks_countP (tcp udp : ProbeFn) (c : Client)
    (ipaServers : List (String × List String))
    (requiredPorts : List (String × Nat × String))
    (henv : (ipaServers.map Prod.fst).Nodup)
    (hsrv : ∀ es ∈ ipaServers, es.2.Nodup)
    (hports : requiredPorts.Nodup)
    {env : String} {servers : List String} (hes : (env, servers) ∈ ipaServers)
    {srv : String} (hs : srv ∈ servers)
    {sp : String × Nat × String} (hp : sp ∈ requiredPorts) :
    (clientChecks tcp udp c ipaServers requiredPorts).countP (checkMatches env srv sp) = 1 := by
  rw [clientChecks_eq, countP_flatMap]
  apply sum_map_eq_one Prod.fst _ ipaServers (env, servers) henv hes
  · rw [countP_flatMap]
    apply sum_map_eq_one id _ servers srv (by simpa using hsrv _ hes) hs
    · rw [List.countP_map]
      apply countP_eq_one_of_nodup _ requiredPorts sp hports hp
      · simp [checkMatches, probeCheck]
      · intro sp' _ hne
        simp only [Function.comp_apply, checkMatches, probeCheck]
        rw [Bool.eq_false_iff]
        intro hb
        simp only [Bool.and_eq_true, beq_iff_eq] at hb
        exact hne (Prod.ext hb.1.1.2 (Prod.ext hb.1.2 hb.2))
    · intro srv' _ hne
      rw [List.countP_eq_zero]
      intro chk hchk
      rcases List.mem_map.1 hchk with ⟨sp', _, rfl⟩
      simp only [checkMatches, probeCheck, Bool.and_eq_true, beq_iff_eq]
      intro h
      exact hne (by simpa using h.1.1.1.2)
  · intro es' _ hne
    rw [List.countP_eq_zero]
    intro chk hchk
    rcases List.mem_flatMap.1 hchk with ⟨srv', _, hchk'⟩
    rcases List.mem_map.1 hchk' with ⟨sp', _, rfl⟩
    simp only [checkMatches, probeCheck, Bool.and_eq_true, beq_iff_eq]
    intro h
    exact hne (by simpa using h.1.1.1.1)

theorem flatMap_congr_left (l : List α) (f g : α → List β)
    (h : ∀ a ∈ l, f a = g a) : l.flatMap f = l.flatMap g := by
  induction l with
  | nil => rfl
  | cons a t ih =>
    simp only [List.flatMap_cons]
    rw [h a (List.mem_cons_self a t), ih (fun a ha => h a (List.mem_cons_of_mem _ ha))]

/-! ### Concrete configurations used by the witnesses -/

def wClient : Client := { host := "app1", user := "cloudadmin" }

def wClients : List Client := [wClient]

def wServers : List (String × List String) := [("DT_AZ1", ["b7", "b8"]), ("DT_AZ2", ["b10"])]

def wPorts : List (String × Nat × String) := [("HTTP", 80, "tcp"), ("DNS", 53, "udp")]

def wTcp : ProbeFn := fun _ _ port => .ok (port == 80)

def wUdp : ProbeFn := fun _ _ _ => .ok true

def wErr : ProbeFn := fun _ _ _ => .error "No route to host"

def errProbe (m : String) : ProbeFn := fun _ _ _ => .error m

def cexServers : List (String × List String) := [("E", ["S"])]

def cexPorts : List (String × Nat × String) := [("HTTP", 80, "tcp")]

/-! ### Claim theorems -/

/-- C1: for every run of `run_all_checks` on a configuration satisfying the
data-model invariants (distinct client hosts, distinct environment names,
each environment's servers a set, distinct required-port triples) and any
probe behaviour, each client's recorded check list has exactly
Σ over environments of `|servers| * |requiredPorts|` entries, and exactly
one entry matches each (client, environment, server, required-port) tuple:
no probe is silently dropped. -/
theorem run_all_checks_complete_matrix (clients : List Client)
    (ipaServers : List (String × List String))
    (requiredPorts : List (String × Nat × String)) (tcp udp : ProbeFn)
    (hhosts : (clients.map Client.host).Nodup)
    (henv : (ipaServers.map Prod.fst).Nodup)
    (hsrv : ∀ es ∈ ipaServers, es.2.Nodup)
    (hports : requiredPorts.Nodup) :
    ∀ c ∈ clients, ∃ cr,
      dictGet c.host (runAllChecks clients ipaServers requiredPorts tcp udp) = some cr ∧
      cr.checks.length = expectedCount ipaServers requiredPorts ∧
      ∀ env servers, (env, servers) ∈ ipaServers → ∀ srv ∈ servers, ∀ sp ∈ requiredPorts,
        cr.checks.countP (checkMatches env srv sp) = 1 := by
  intro c hc
  refine ⟨_, runAllChecks_dictGet clients ipaServers requiredPorts tcp udp hhosts c hc,
    clientChecks_length tcp udp c ipaServers requiredPorts, ?_⟩
  intro env servers hes srv hs sp hp
  exact clientChecks_countP tcp udp c ipaServers requiredPorts henv hsrv hports hes hs hp

theorem run_all_checks_complete_matrix_witness :
    ∃ cr, dictGet "app1" (runAllChecks wClients wServers wPorts wTcp wUdp) = some cr ∧
      cr.checks.length = expectedCount wServers wPorts ∧
      ∀ env servers, (env, servers) ∈ wServers → ∀ srv ∈ servers, ∀ sp ∈ wPorts,
        cr.checks.countP (checkMatches env srv sp) = 1 :=
  run_all_checks_complete_matrix wClients wServers wPorts wTcp wUdp
    (by decide) (by decide) (by decide) (by decide) wClient (by decide)

/-- C2: for every configuration and every probe behaviour — including one
where every probe raises — `run_all_checks` yields a result matrix in which
each client still has one entry per required probe; when every probe for a
client raises (e.g. its SSH session cannot be established), that client's
entries are all recorded with `ok = false` and the other clients' probes
are unaffected (their counts are given by the same conclusion). -/
theorem run_all_checks_total_on_failures (clients : List Client)
    (ipaServers : List (String × List String))
    (requiredPorts : List (String × Nat × String)) (tcp udp : ProbeFn)
    (hhosts : (clients.map Client.host).Nodup) :
    ∀ c ∈ clients, ∃ cr,
      dictGet c.host (runAllChecks clients ipaServers requiredPorts tcp udp) = some cr ∧
      cr.checks.length = expectedCount ipaServers requiredPorts ∧
      ((∀ srv port, (∃ m, tcp c srv port = .error m) ∧ (∃ m, udp c srv port = .error m)) →
        ∀ chk ∈ cr.checks, chk.ok = false) := by
  intro c hc
  refine ⟨_, runAllChecks_dictGet clients ipaServers requiredPorts tcp udp hhosts c hc,
    clientChecks_length tcp udp c ipaServers requiredPorts, ?_⟩
  intro herr chk hchk
  rw [clientChecks_eq] at hchk
  rcases List.mem_flatMap.1 hchk with ⟨es, _, h2⟩
  rcases List.mem_flatMap.1 h2 with ⟨srv, _, h3⟩
  rcases List.mem_map.1 h3 with ⟨sp, _, rfl⟩
  show okOfOutcome (if pyLower sp.2.2 = "tcp"
    then tcp c srv sp.2.1 else udp c srv sp.2.1) = false
  by_cases hcond : pyLower sp.2.2 = "tcp"
  · obtain ⟨m, hm⟩ := (herr srv sp.2.1).1
    rw [if_pos hcond, hm]; rfl
  · obtain ⟨m, hm⟩ := (herr srv sp.2.1).2
    rw [if_neg hcond, hm]; rfl

theorem run_all_checks_total_on_failures_witness :
    ∃ cr, dictGet "app1" (runAllChecks wClients wServers wPorts wErr wErr) = some cr ∧
      cr.checks.length = expectedCount wServers wPorts ∧
      ((∀ srv port, (∃ m, wErr wClient srv port = .error m) ∧
          (∃ m, wErr wClient srv port = .error m)) →
        ∀ chk ∈ cr.checks, chk.ok = false) :=
  run_all_checks_total_on_failures wClients wServers wPorts wErr wErr
    (by decide) wClient (by decide)

/-- C3 counterexample: the orchestrator does not preserve the error detail
of a raising probe.  Two runs whose probes raise with different error texts
produce identical result matrices, and the single recorded entry is the
detail-free record `⟨"E", "S", "HTTP", 80, "tcp", false⟩` (a `Check` has no
detail field at all), so the transport-error text is lost. -/
theorem probe_error_detail_not_preserved :
    runAllChecks wClients cexServers cexPorts
        (errProbe "SSH connect timeout") (errProbe "SSH connect timeout") =
      runAllChecks wClients cexServers cexPorts
        (errProbe "authentication failed") (errProbe "authentication failed") ∧
    runAllChecks wClients cexServers cexPorts
        (errProbe "SSH connect timeout") (errProbe "SSH connect timeout") =
      [("app1", ⟨⟨"cloudadmin", none⟩, [⟨"E", "S", "HTTP", 80, "tcp", false⟩]⟩)] :=
  ⟨rfl, rfl⟩

/-- Mapping every raised error text to `""`: used to state that the result
matrix cannot depend on the error detail. -/
def scrub : Except String Bool → Except String Bool
  | .ok b => .ok b
  | .error _ => .error ""

theorem okOfOutcome_scrub (e : Except String Bool) :
    okOfOutcome (scrub e) = okOfOutcome e := by
  cases e <;> rfl

/-- C3 amended: a raising probe is recorded as `ok = false`, but the error
detail is discarded, not preserved: the result matrix is unchanged when
every raised error text is replaced by `""`, and a raised probe contributes
`ok = false` via `okOfOutcome`. -/
theorem probe_exception_recorded_without_detail (clients : List Client)
    (ipaServers : List (String × List String))
    (requiredPorts : List (String × Nat × String)) (tcp udp : ProbeFn) :
    runAllChecks clients ipaServers requiredPorts tcp udp =
      runAllChecks clients ipaServers requiredPorts
        (fun c srv port => scrub (tcp c srv port))
        (fun c srv port => scrub (udp c srv port)) ∧
    ∀ m : String, okOfOutcome (Except.error m) = false := by
  refine ⟨?_, fun m => rfl⟩
  have hpc : ∀ (c : Client) (env srv : String) (sp : String × Nat × String),
      probeCheck (fun c srv port => scrub (tcp c srv port))
        (fun c srv port => scrub (udp c srv port)) c env srv sp =
      probeCheck tcp udp c env srv sp := by
    intro c env srv sp
    unfold probeCheck
    by_cases hcond : pyLower sp.2.2 = "tcp"
    · rw [if_pos hcond, if_pos hcond, okOfOutcome_scrub]
    · rw [if_neg hcond, if_neg hcond, okOfOutcome_scrub]
  have hcc : ∀ c : Client,
      clientChecks (fun c srv port => scrub (tcp c srv port))
        (fun c srv port => scrub (udp c srv port)) c ipaServers requiredPorts =
      clientChecks tcp udp c ipaServers requiredPorts := by
    intro c
    rw [clientChecks_eq, clientChecks_eq]
    apply flatMap_congr_left
    intro es _
    apply flatMap_congr_left
    intro srv _
    apply List.map_congr_left
    intro sp _
    exact hpc c es.1 srv sp
  unfold runAllChecks
  simp only [hcc]

/-- C5: for every run (with the dict invariant of distinct client hosts),
the check list recorded for each client is exactly the flattening of the
configuration in declaration order — environments, then servers within the
environment, then required ports — with the probe method selected by the
port's protocol inside `probeCheck`. -/
theorem run_all_checks_declaration_order (clients : List Client)
    (ipaServers : List (String × List String))
    (requiredPorts : List (String × Nat × String)) (tcp udp : ProbeFn)
    (hhosts : (clients.map Client.host).Nodup) :
    ∀ c ∈ clients,
      dictGet c.host (runAllChecks clients ipaServers requiredPorts tcp udp) =
        some ⟨⟨c.user, c.bastion⟩,
          ipaServers.flatMap (fun es => es.2.flatMap (fun srv =>
            requiredPorts.map (probeCheck tcp udp c es.1 srv)))⟩ := by
  intro c hc
  rw [runAllChecks_dictGet clients ipaServers requiredPorts tcp udp hhosts c hc,
    clientChecks_eq]

theorem run_all_checks_declaration_order_witness :
    dictGet "app1" (runAllChecks wClients wServers wPorts wTcp wUdp) =
      some ⟨⟨"cloudadmin", none⟩,
        wServers.flatMap (fun es => es.2.flatMap (fun srv =>
          wPorts.map (probeCheck wTcp wUdp wClient es.1 srv)))⟩ :=
  run_all_checks_declaration_order wClients wServers wPorts wTcp wUdp
    (by decide) wClient (by decide)

/-- C8: the matrix run is deterministic: for a fixed configuration, any two
probe behaviours that agree pointwise on every (client, server, port) input
produce identical result matrices — entry for entry, in the same order. -/
theorem run_all_checks_deterministic (clients : List Client)
    (ipaServers : List (String × List String))
    (requiredPorts : List (String × Nat × String)) (tcp udp tcp' udp' : ProbeFn)
    (h1 : ∀ c srv port, tcp c srv port = tcp' c srv port)
    (h2 : ∀ c srv port, udp c srv port = udp' c srv port) :
    runAllChecks clients ipaServers requiredPorts tcp udp =
      runAllChecks clients ipaServers requiredPorts tcp' udp' := by
  have e1 : tcp = tcp' := funext fun c => funext fun s => funext fun p => h1 c s p
  have e2 : udp = udp' := funext fun c => funext fun s => funext fun p => h2 c s p
  rw [e1, e2]

theorem run_all_checks_deterministic_witness :
    runAllChecks wClients wServers wPorts wTcp wUdp =
      runAllChecks wClients wServers wPorts
        (fun c srv port => wTcp c srv port) (fun c srv port => wUdp c srv port) :=
  run_all_checks_deterministic wClients wServers wPorts wTcp wUdp _ _
    (fun _ _ _ => rfl) (fun _ _ _ => rfl)

/-- C9 (implicit): every required port whose protocol string is not
case-insensitively `"tcp"` is dispatched to the UDP probe — the recorded
`ok` comes from the UDP oracle for every such port (`"icmp"`, `""`,
`"sctp"`, … included), and port numbers are never range-validated: the
check list is complete (`expectedCount`) for arbitrary port numbers such
as `0` or `70000`. -/
theorem unknown_protocols_dispatch_udp (tcp udp : ProbeFn) (c : Client)
    (ipaServers : List (String × List String))
    (requiredPorts : List (String × Nat × String))
    (hproto : ∀ sp ∈ requiredPorts, ¬ pyLower sp.2.2 = "tcp") :
    clientChecks tcp udp c ipaServers requiredPorts =
      ipaServers.flatMap (fun es => es.2.flatMap (fun srv =>
        requiredPorts.map (fun sp =>
          { env := es.1, server := srv, service := sp.1, port := sp.2.1, proto := sp.2.2,
            ok := okOfOutcome (udp c srv sp.2.1) }))) ∧
    (clientChecks tcp udp c ipaServers requiredPorts).length =
      expectedCount ipaServers requiredPorts := by
  refine ⟨?_, clientChecks_length tcp udp c ipaServers requiredPorts⟩
  rw [clientChecks_eq]
  apply flatMap_congr_left
  intro es _
  apply flatMap_congr_left
  intro srv _
  apply List.map_congr_left
  intro sp hsp
  unfold probeCheck
  rw [if_neg (hproto sp hsp)]

def wPortsOdd : List (String × Nat × String) :=
  [("ICMP", 0, "icmp"), ("WEIRD", 70000, ""), ("KRB", 88, "UDP")]

theorem unknown_protocols_dispatch_udp_witness :
    (clientChecks wTcp wUdp wClient wServers wPortsOdd =
      wServers.flatMap (fun es => es.2.flatMap (fun srv =>
        wPortsOdd.map (fun sp =>
          { env := es.1, server := srv, service := sp.1, port := sp.2.1, proto := sp.2.2,
            ok := okOfOutcome (wUdp wClient srv sp.2.1) }))) ∧
    (clientChecks wTcp wUdp wClient wServers wPortsOdd).length =
      expectedCount wServers wPortsOdd) :=
  unknown_protocols_dispatch_udp wTcp wUdp wClient wServers wPortsOdd (by decide)

/-! ### Probe engine: `check_tcp_from_client` / `check_udp_from_client` -/

/-- `ssh_run` as seen by the probe engine: a function from
(client, command, timeout) to either `(exit_code, stdout, stderr)` or a
raised exception. -/
abbrev SshRunFn := Client → String → Nat → Except String (Int × String × String)

/-- The remote command built by `check_tcp_from_client`: a bash `/dev/tcp`
connect bounded by the TCP timeout. -/
def tcpCmd (tcpTimeout : Nat) (server : String) (port : Nat) : String :=
  "bash -lc " ++ q ++ "timeout " ++ toString tcpTimeout ++ " bash -c \">/dev/tcp/"
    ++ server ++ "/" ++ toString port ++ "\" >/dev/null 2>&1" ++ q
where
  q : String := "\x27"

/-- The remote command built by `check_udp_from_client`: a bash `/dev/udp`
datagram send bounded by the UDP timeout. -/
def udpCmd (udpTimeout : Nat) (server : String) (port : Nat) : String :=
  "bash -lc " ++ q ++ "timeout " ++ toString udpTimeout
    ++ " bash -c \"echo ping >/dev/udp/" ++ server ++ "/" ++ toString port
    ++ "\" >/dev/null 2>&1" ++ q
where
  q : String := "\x27"

/-- `check_tcp_from_client`: run `tcpCmd` on the client over SSH with
timeout `TCP_TIMEOUT + 5` and return `rc == 0`; an exception from
`ssh_run` propagates. -/
def check_tcp_from_client (sshRun : SshRunFn) (tcpTimeout : Nat) (client : Client)
    (server : String) (port : Nat) : Except String Bool :=
  (sshRun client (tcpCmd tcpTimeout server port) (tcpTimeout + 5)).map (fun r => r.1 == 0)

/-- `check_udp_from_client`: run `udpCmd` on the client over SSH with
timeout `UDP_TIMEOUT + 5` and return `rc == 0`; an exception from
`ssh_run` propagates. -/
def check_udp_from_client (sshRun : SshRunFn) (udpTimeout : Nat) (client : Client)
    (server : String) (port : Nat) : Except String Bool :=
  (sshRun client (udpCmd udpTimeout server port) (udpTimeout + 5)).map (fun r => r.1 == 0)

/-- C4: when the remote command completes with exit status `rc`, the TCP
probe returns exactly `rc == 0`: reachable iff the exit status is zero.
Every non-zero exit status (refused, timeout, routing failure — all just a
non-zero `rc` here) yields `false`, and nothing beyond this boolean is
returned. -/
theorem check_tcp_reachable_iff_exit_zero (sshRun : SshRunFn) (tcpTimeout : Nat)
    (client : Client) (server : String) (port : Nat) (rc : Int) (out err : String)
    (h : sshRun client (tcpCmd tcpTimeout server port) (tcpTimeout + 5) = .ok (rc, out, err)) :
    check_tcp_from_client sshRun tcpTimeout client server port = .ok (rc == 0) ∧
    (check_tcp_from_client sshRun tcpTimeout client server port = .ok true ↔ rc = 0) := by
  unfold check_tcp_from_client
  rw [h]
  refine ⟨rfl, ?_⟩
  simp [Except.map]

def wSshZero : SshRunFn := fun _ _ _ => .ok (0, "", "")

theorem check_tcp_reachable_iff_exit_zero_witness :
    check_tcp_from_client wSshZero 3 wClient "sdpappb1002" 80 = .ok ((0 : Int) == 0) ∧
    (check_tcp_from_client wSshZero 3 wClient "sdpappb1002" 80 = .ok true ↔ (0 : Int) = 0) :=
  check_tcp_reachable_iff_exit_zero wSshZero 3 wClient "sdpappb1002" 80 0 "" "" rfl

/-! ### Remote executor: `ssh_run` session release -/

/-- The environment one call of `ssh_run` runs against: whether
`ssh.connect` succeeds (auth failure, no route, connect timeout are the
raising cases), whether `exec_command`/`read`/`recv_exit_status` succeed
(command timeout raises here), and whether `ssh.close()` itself raises. -/
structure SshWorld where
  connectResult : Except String Unit
  execResult : Except String (Int × String × String)
  closeRaises : Bool

/-- Observable outcome of one `ssh_run` call: the returned-or-raised
result, whether an SSH session is still open after the call, and whether
`ssh.close()` was invoked. -/
structure SshOutcome where
  result : Except String (Int × String × String)
  sessionOpen : Bool
  closeCalled : Bool

/-- The `finally` block of `ssh_run`: `ssh.close()` under
`try/except Exception: pass` — the session is closed and close is recorded
as invoked on whatever state the `try` body left; an exception from
`close` itself is swallowed, so the pending result is unchanged. -/
def finallyClose (o : SshOutcome) (_closeRaises : Bool) : SshOutcome :=
  { o with sessionOpen := false, closeCalled := true }

/-- `ssh_run`: connect (possibly through a bastion `ProxyCommand`), then
`exec_command` and read the streams and exit status; the `finally` block
runs on the raising paths of `connect` and of `exec`/`read` as well as on
the successful path. -/
def ssh_run (w : SshWorld) : SshOutcome :=
  match w.connectResult with
  | .error e =>
    finallyClose { result := .error e, sessionOpen := false, closeCalled := false } w.closeRaises
  | .ok _ =>
    match w.execResult with
    | .error e =>
      finallyClose { result := .error e, sessionOpen := true, closeCalled := false } w.closeRaises
    | .ok r =>
      finallyClose { result := .ok r, sessionOpen := true, closeCalled := false } w.closeRaises

/-- C7: on every exit path of `ssh_run` — successful completion, connect
failure (auth failure, unreachable, connect timeout), exec/read failure
(command timeout or any other exception), and whether or not `close`
itself raises — `ssh.close()` is invoked and no session is left open, and
the returned result is the body's outcome (the connect error, the exec
error, or the command's `(rc, stdout, stderr)`). -/
theorem ssh_run_always_releases_session (w : SshWorld) :
    ((ssh_run w).sessionOpen = false ∧ (ssh_run w).closeCalled = true) ∧
    (ssh_run w).result = (match w.connectResult with
      | .error e => .error e
      | .ok _ => w.execResult) := by
  rcases w with ⟨hc, he, hcr⟩
  cases hc <;> cases he <;> simp [ssh_run, finallyClose]

/-! ### Report renderer: `html_escape` -/

/-- Python `str.replace(old, new)` for a single-character needle, on the
character-list view of strings: every occurrence of `c` is substituted by
`r`, all other characters kept. -/
def pyReplaceChar (c : Char) (r : List Char) (l : List Char) : List Char :=
  l.flatMap (fun a => if a = c then r else [a])

/-- `html_escape`:
`(s or "").replace("&", "&amp;").replace("<", "&lt;").replace(">", "&gt;")`,
with `None` becoming `""`.  Each `replace` has a one-character needle, so
it is the character-wise substitution `pyReplaceChar`, applied in source
order: `&` first, then `<`, then `>`. -/
def html_escape (s : Option (List Char)) : List Char :=
  pyReplaceChar '>' ("&gt;".data)
    (pyReplaceChar '<' ("&lt;".data)
      (pyReplaceChar '&' ("&amp;".data) (s.getD [])))

theorem mem_pyReplaceChar {x c : Char} {r l : List Char}
    (h : x ∈ pyReplaceChar c r l) : x ∈ r ∨ (x ∈ l ∧ x ≠ c) := by
  rcases List.mem_flatMap.1 h with ⟨a, ha, hx⟩
  by_cases hac : a = c
  · rw [if_pos hac] at hx
    exact .inl hx
  · rw [if_neg hac] at hx
    have hxa : x = a := List.mem_singleton.1 hx
    subst hxa
    exact .inr ⟨ha, hac⟩

/-- C10: `html_escape` is total with `None ↦ ""`; its output never
contains a raw `<` or `>`; and because `&` is replaced first, no
replacement is applied twice: `"<"` becomes `"&lt;"` (not `"&amp;lt;"`)
and `"&"` becomes `"&amp;"`. -/
theorem html_escape_no_raw_angle_brackets :
    html_escape none = [] ∧
    (∀ l : List Char, '<' ∉ html_escape (some l) ∧ '>' ∉ html_escape (some l)) ∧
    html_escape (some "<".data) = "&lt;".data ∧
    html_escape (some "&".data) = "&amp;".data := by
  refine ⟨rfl, ?_, rfl, rfl⟩
  intro l
  constructor
  · intro hmem
    rcases mem_pyReplaceChar hmem with h | ⟨h2, _⟩
    · revert h; decide
    · rcases mem_pyReplaceChar h2 with h | ⟨_, hne⟩
      · revert h; decide
      · exact hne rfl
  · intro hmem
    rcases mem_pyReplaceChar hmem with h | ⟨_, hne⟩
    · revert h; decide
    · exact hne rfl

/-! ### Report renderer: `render_html` row order

`render_html` walks `sorted(results.items())` (Python compares the pairs
by the host key; the keys of a dict are distinct, so the value is never
compared), rebuilds `by_env` / `servers` dicts whose keys appear in first
occurrence order (`setdefault`), iterates `sorted(...)` over both, and
finally sorts each cell list with `key=(service, proto, port)`.  Python's
`sorted` is stable; `List.insertionSort` is the matching stable sort.  A
row is modelled by the fields the renderer prints. -/

structure Row where
  client : String
  env : String
  server : String
  service : String
  port : Nat
  proto : String
  ok : Bool
deriving DecidableEq

/-- A Python string as its list of Unicode code points: Python compares
strings lexicographically by code point. -/
def pyStrKey (s : String) : List Nat := s.data.map Char.toNat

/-- Python `a <= b` on strings. -/
def pyStrLe (a b : String) : Prop := pyStrKey a ≤ pyStrKey b

/-- Python `a < b` on strings. -/
def pyStrLt (a b : String) : Prop := pyStrKey a < pyStrKey b

theorem pyStrKey_injective : Function.Injective pyStrKey := by
  intro a b h
  have hdata : a.data = b.data := by
    have hinj : Function.Injective Char.toNat := fun x y hxy => Char.ext (UInt32.toNat.inj hxy)
    exact List.map_injective_iff.2 hinj h
  cases a
  cases b
  exact congrArg String.mk hdata

/-- Order on `results.items()`: by the host key. -/
def itemLe (a b : String × ClientResult) : Prop := pyStrLe a.1 b.1

instance : DecidableRel itemLe :=
  fun a b => inferInstanceAs (Decidable (pyStrKey a.1 ≤ pyStrKey b.1))

instance : IsTotal (String × ClientResult) itemLe :=
  ⟨fun a b => le_total (pyStrKey a.1) (pyStrKey b.1)⟩

instance : IsTrans (String × ClientResult) itemLe :=
  ⟨fun _ _ _ h1 h2 => le_trans (α := List Nat) h1 h2⟩

instance : DecidableRel pyStrLe :=
  fun a b => inferInstanceAs (Decidable (pyStrKey a ≤ pyStrKey b))

instance : IsTotal String pyStrLe := ⟨fun a b => le_total (pyStrKey a) (pyStrKey b)⟩

instance : IsTrans String pyStrLe := ⟨fun _ _ _ h1 h2 => le_trans (α := List Nat) h1 h2⟩

/-- The Python sort key `(x["service"], x["proto"], x["port"])`. -/
def chkKey (chk : Check) : List Nat ×ₗ List Nat ×ₗ Nat :=
  toLex (pyStrKey chk.service, toLex (pyStrKey chk.proto, chk.port))

def chkLe (a b : Check) : Prop := chkKey a ≤ chkKey b

instance : DecidableRel chkLe := fun a b => inferInstanceAs (Decidable (chkKey a ≤ chkKey b))

instance : IsTotal Check chkLe := ⟨fun a b => le_total (chkKey a) (chkKey b)⟩

instance : IsTrans Check chkLe := ⟨fun _ _ _ h1 h2 => le_trans h1 h2⟩

/-- Keys of a Python dict built by repeated `setdefault`: first-occurrence
order, each key once. -/
def firstKeysAux (seen : List String) : List String → List String
  | [] => []
  | k :: rest =>
    if k ∈ seen then firstKeysAux seen rest else k :: firstKeysAux (k :: seen) rest

def firstKeys (l : List String) : List String := firstKeysAux [] l

/-- The rows emitted for one `(client, env, server)` group: the checks of
that env and server, in original order, sorted stably by
`(service, proto, port)`. -/
def rowsForServer (client env server : String) (checks : List Check) : List Row :=
  (List.insertionSort chkLe
      (checks.filter (fun chk => chk.env == env && chk.server == server))).map
    (fun chk => ⟨client, env, server, chk.service, chk.port, chk.proto, chk.ok⟩)

/-- The rows emitted for one `(client, env)` group: servers of that env in
sorted order. -/
def rowsForEnv (client env : String) (checks : List Check) : List Row :=
  (List.insertionSort pyStrLe
      (firstKeys ((checks.filter (fun chk => chk.env == env)).map Check.server))).flatMap
    (fun srv => rowsForServer client env srv checks)

/-- The rows emitted for one client: environments in sorted order. -/
def rowsForClient (client : String) (cr : ClientResult) : List Row :=
  (List.insertionSort pyStrLe (firstKeys (cr.checks.map Check.env))).flatMap
    (fun env => rowsForEnv client env cr.checks)

/-- The row order of the table emitted by `render_html`. -/
def renderRows (results : List (String × ClientResult)) : List Row :=
  (List.insertionSort itemLe results).flatMap (fun kv => rowsForClient kv.1 kv.2)

/-- The grouping key named by the claim: (client, environment, server, port). -/
def rowGroupKey (r : Row) : String × String × String × Nat :=
  (r.client, r.env, r.server, r.port)

/-- Modelled from the spec's words, for comparison with the renderer:
"rows are ordered grouped by client, then by environment, then by server,
then by port" — read as: rows sharing a (client, env, server, port) key
are contiguous in the emitted order. -/
def rowsGroupedByPort (rows : List Row) : Prop :=
  ((rows.map rowGroupKey).destutter (· ≠ ·)).Nodup

instance (rows : List Row) : Decidable (rowsGroupedByPort rows) :=
  inferInstanceAs (Decidable (((rows.map rowGroupKey).destutter (· ≠ ·)).Nodup))

/-- The renderer's actual total order on rows: lexicographic by
(client, env, server, service, proto, port). -/
def rowKey (r : Row) :
    List Nat ×ₗ List Nat ×ₗ List Nat ×ₗ List Nat ×ₗ List Nat ×ₗ Nat :=
  toLex (pyStrKey r.client, toLex (pyStrKey r.env, toLex (pyStrKey r.server,
    toLex (pyStrKey r.service, toLex (pyStrKey r.proto, r.port)))))

def rowLe (a b : Row) : Prop := rowKey a ≤ rowKey b

theorem firstKeysAux_nodup :
    ∀ (l seen : List String),
      (firstKeysAux seen l).Nodup ∧ ∀ a ∈ firstKeysAux seen l, a ∉ seen := by
  intro l
  induction l with
  | nil =>
    intro seen
    exact ⟨List.nodup_nil, by intro a ha; exact absurd ha (List.not_mem_nil a)⟩
  | cons k rest ih =>
    intro seen
    by_cases hk : k ∈ seen
    · simp only [firstKeysAux, if_pos hk]
      exact ih seen
    · simp only [firstKeysAux, if_neg hk]
      obtain ⟨hnd, hseen⟩ := ih (k :: seen)
      refine ⟨List.nodup_cons.2 ⟨?_, hnd⟩, ?_⟩
      · intro hkmem
        exact hseen k hkmem (List.mem_cons_self k seen)
      · intro a ha
        rcases List.mem_cons.1 ha with rfl | ha'
        · exact hk
        · intro haseen
          exact hseen a ha' (List.mem_cons_of_mem k haseen)

theorem firstKeys_nodup (l : List String) : (firstKeys l).Nodup :=
  (firstKeysAux_nodup l []).1

theorem sorted_flatMap {R : β → β → Prop} (l : List α) (f : α → List β)
    (hin : ∀ a ∈ l, List.Pairwise R (f a))
    (hcross : List.Pairwise (fun a b => ∀ x ∈ f a, ∀ y ∈ f b, R x y) l) :
    List.Pairwise R (l.flatMap f) :=
  List.pairwise_flatMap.2 ⟨hin, hcross⟩

theorem pairwise_lt_sort_strings (l : List String) (hnd : l.Nodup) :
    List.Pairwise pyStrLt (List.insertionSort pyStrLe l) := by
  have hs : List.Pairwise pyStrLe (List.insertionSort pyStrLe l) :=
    List.sorted_insertionSort pyStrLe l
  have hn : (List.insertionSort pyStrLe l).Nodup :=
    (List.perm_insertionSort pyStrLe l).nodup_iff.2 hnd
  refine (hs.and hn).imp ?_
  intro a b h
  exact lt_of_le_of_ne h.1 (fun he => h.2 (pyStrKey_injective he))

theorem pairwise_fst_lt_sort_items (results : List (String × ClientResult))
    (hnd : (results.map Prod.fst).Nodup) :
    List.Pairwise (fun a b : String × ClientResult => pyStrLt a.1 b.1)
      (List.insertionSort itemLe results) := by
  have hs : List.Pairwise itemLe (List.insertionSort itemLe results) :=
    List.sorted_insertionSort itemLe results
  have hne : List.Pairwise (fun a b : String × ClientResult => a.1 ≠ b.1)
      (List.insertionSort itemLe results) := by
    have hp : ((List.insertionSort itemLe results).map Prod.fst).Nodup :=
      ((List.perm_insertionSort itemLe results).map Prod.fst).nodup_iff.2 hnd
    rw [List.Nodup, List.pairwise_map] at hp
    exact hp
  refine (hs.and hne).imp ?_
  intro a b h
  exact lt_of_le_of_ne h.1 (fun he => h.2 (pyStrKey_injective he))

theorem rowLe_of_client_lt {a b : Row} (h : pyStrLt a.client b.client) : rowLe a b := by
  unfold rowLe rowKey
  rw [Prod.Lex.le_iff]
  exact .inl h

theorem rowLe_of_env_lt {a b : Row} (hc : a.client = b.client)
    (h : pyStrLt a.env b.env) : rowLe a b := by
  unfold rowLe rowKey
  rw [Prod.Lex.le_iff]
  refine .inr ⟨congrArg pyStrKey hc, ?_⟩
  rw [Prod.Lex.le_iff]
  exact .inl h

theorem rowLe_of_server_lt {a b : Row} (hc : a.client = b.client)
    (he : a.env = b.env) (h : pyStrLt a.server b.server) : rowLe a b := by
  unfold rowLe rowKey
  rw [Prod.Lex.le_iff]
  refine .inr ⟨congrArg pyStrKey hc, ?_⟩
  rw [Prod.Lex.le_iff]
  refine .inr ⟨congrArg pyStrKey he, ?_⟩
  rw [Prod.Lex.le_iff]
  exact .inl h

theorem rowLe_of_tail_le {a b : Row} (hc : a.client = b.client)
    (he : a.env = b.env) (hs : a.server = b.server)
    (h : (toLex (pyStrKey a.service, toLex (pyStrKey a.proto, a.port)) :
        List Nat ×ₗ List Nat ×ₗ Nat) ≤
      toLex (pyStrKey b.service, toLex (pyStrKey b.proto, b.port))) : rowLe a b := by
  unfold rowLe rowKey
  rw [Prod.Lex.le_iff]
  refine .inr ⟨congrArg pyStrKey hc, ?_⟩
  rw [Prod.Lex.le_iff]
  refine .inr ⟨congrArg pyStrKey he, ?_⟩
  rw [Prod.Lex.le_iff]
  exact .inr ⟨congrArg pyStrKey hs, h⟩

theorem mem_rowsForServer {x : Row} {client env server : String} {checks : List Check}
    (h : x ∈ rowsForServer client env server checks) :
    x.client = client ∧ x.env = env ∧ x.server = server := by
  rcases List.mem_map.1 h with ⟨chk, _, rfl⟩
  exact ⟨rfl, rfl, rfl⟩

theorem mem_rowsForEnv {x : Row} {client env : String} {checks : List Check}
    (h : x ∈ rowsForEnv client env checks) :
    x.client = client ∧ x.env = env := by
  rcases List.mem_flatMap.1 h with ⟨srv, _, hx⟩
  exact ⟨(mem_rowsForServer hx).1, (mem_rowsForServer hx).2.1⟩

theorem mem_rowsForClient {x : Row} {client : String} {cr : ClientResult}
    (h : x ∈ rowsForClient client cr) : x.client = client := by
  rcases List.mem_flatMap.1 h with ⟨env, _, hx⟩
  exact (mem_rowsForEnv hx).1

theorem sorted_rowsForServer (client env server : String) (checks : List Check) :
    List.Pairwise rowLe (rowsForServer client env server checks) := by
  unfold rowsForServer
  rw [List.pairwise_map]
  have hs : List.Pairwise chkLe (List.insertionSort chkLe
      (checks.filter (fun chk => chk.env == env && chk.server == server))) :=
    List.sorted_insertionSort chkLe
      (checks.filter (fun chk => chk.env == env && chk.server == server))
  refine hs.imp ?_
  intro c1 c2 h
  exact rowLe_of_tail_le rfl rfl rfl h

theorem sorted_rowsForEnv (client env : String) (checks : List Check) :
    List.Pairwise rowLe (rowsForEnv client env checks) := by
  unfold rowsForEnv
  apply sorted_flatMap
  · intro srv _
    exact sorted_rowsForServer client env srv checks
  · have hlt := pairwise_lt_sort_strings
      (firstKeys ((checks.filter (fun chk => chk.env == env)).map Check.server))
      (firstKeys_nodup _)
    refine hlt.imp ?_
    intro s1 s2 h12 x hx y hy
    obtain ⟨hxc, hxe, hxs⟩ := mem_rowsForServer hx
    obtain ⟨hyc, hye, hys⟩ := mem_rowsForServer hy
    refine rowLe_of_server_lt (hxc.trans hyc.symm) (hxe.trans hye.symm) ?_
    rw [hxs, hys]
    exact h12

theorem sorted_rowsForClient (client : String) (cr : ClientResult) :
    List.Pairwise rowLe (rowsForClient client cr) := by
  unfold rowsForClient
  apply sorted_flatMap
  · intro env _
    exact sorted_rowsForEnv client env cr.checks
  · have hlt := pairwise_lt_sort_strings (firstKeys (cr.checks.map Check.env))
      (firstKeys_nodup _)
    refine hlt.imp ?_
    intro e1 e2 h12 x hx y hy
    obtain ⟨hxc, hxe⟩ := mem_rowsForEnv hx
    obtain ⟨hyc, hye⟩ := mem_rowsForEnv hy
    refine rowLe_of_env_lt (hxc.trans hyc.symm) ?_
    rw [hxe, hye]
    exact h12

/-- C6 amended: for every result matrix handed to the renderer (with the
dict invariant that client keys are distinct), the emitted rows are
totally ordered lexicographically by (client, environment, server,
service, protocol, port): grouped by client, then environment, then
server, and within each server group sorted by (service, protocol, port)
— not by port alone. -/
theorem render_rows_sorted (results : List (String × ClientResult))
    (hnd : (results.map Prod.fst).Nodup) :
    List.Pairwise rowLe (renderRows results) := by
  unfold renderRows
  apply sorted_flatMap
  · intro kv _
    exact sorted_rowsForClient kv.1 kv.2
  · have hlt := pairwise_fst_lt_sort_items results hnd
    refine hlt.imp ?_
    intro kv1 kv2 h12 x hx y hy
    have hxc := mem_rowsForClient hx
    have hyc := mem_rowsForClient hy
    apply rowLe_of_client_lt
    rw [hxc, hyc]
    exact h12

/-- The concrete matrix refuting the claimed grouping: one client, one
environment, one server, services `"A"`, `"B"`, `"C"` on ports 5, 3, 5. -/
def cexRenderResults : List (String × ClientResult) :=
  [("c", ⟨⟨"u", none⟩,
    [⟨"e", "s", "A", 5, "t", true⟩,
     ⟨"e", "s", "B", 3, "t", true⟩,
     ⟨"e", "s", "C", 5, "t", true⟩]⟩)]

/-- C6 counterexample: the renderer sorts each server group by
`(service, proto, port)`, not by port, so rows of port 5 ("A" and "C")
are separated by the port-3 row of service "B": the emitted rows are not
grouped (nor ordered) by client, environment, server, then port. -/
theorem render_rows_not_grouped_by_port :
    ¬ rowsGroupedByPort (renderRows cexRenderResults) := by decide

theorem render_rows_sorted_witness :
    ((cexRenderResults.map Prod.fst).Nodup) ∧
      List.Pairwise rowLe (renderRows cexRenderResults) :=
  ⟨by decide, render_rows_sorted cexRenderResults (by decide)⟩

end Connectivity
